import Mathlib

/-!
Shallow embedding of `src/climate_check.py` (climate_check repository).

Temperatures and coordinates are modelled as rationals (`ℚ`); the Python
floats in the source are only ever produced by parsing short decimal
literals and combined by sums, differences and divisions, and every claim
under study is structural or exact-arithmetic, so `ℚ` is the faithful
executable carrier.  Missing values (pandas `NaN`, Python `None`) are
modelled as `Option.none`; a Python crash (an uncaught exception escaping
the function under study) is modelled by `Option.none` / `Except.error`
at the function's result type.
-/

namespace ClimateCheck

/-! ### Kernel-computable rational arithmetic

The standard `Rat.add`, `Rat.sub`, `Rat.mul` and `Rat.inv` are marked
irreducible, which blocks `decide`-style evaluation of the embedding on
concrete inputs.  We therefore define the four operations from `mkRat`
(which does reduce) and prove once that they agree with the standard
ones; the embedding below uses these reducible versions. -/

/-- Reducible rational addition. -/
def qadd (a b : ℚ) : ℚ := mkRat (a.num * b.den + b.num * a.den) (a.den * b.den)

/-- Reducible rational negation. -/
def qneg (a : ℚ) : ℚ := mkRat (-a.num) a.den

/-- Reducible rational subtraction. -/
def qsub (a b : ℚ) : ℚ := qadd a (qneg b)

/-- Reducible rational multiplication. -/
def qmul (a b : ℚ) : ℚ := mkRat (a.num * b.num) (a.den * b.den)

/-- Reducible rational inverse (`qinv 0 = 0`). -/
def qinv (b : ℚ) : ℚ :=
  if b.num < 0 then mkRat (-(b.den : ℤ)) b.num.natAbs else mkRat (b.den : ℤ) b.num.natAbs

/-- Reducible rational division (division by zero gives zero, as for `/`). -/
def qdiv (a b : ℚ) : ℚ := qmul a (qinv b)

/-- Reducible sum of a list of rationals. -/
def qsum (l : List ℚ) : ℚ := l.foldr qadd 0

theorem qadd_eq (a b : ℚ) : qadd a b = a + b := by
  unfold qadd
  rw [Rat.mkRat_eq_divInt, Rat.divInt_eq_div]
  push_cast
  conv_rhs => rw [← Rat.num_div_den a, ← Rat.num_div_den b]
  have ha : ((a.den : ℚ)) ≠ 0 := by exact_mod_cast a.den_ne_zero
  have hb : ((b.den : ℚ)) ≠ 0 := by exact_mod_cast b.den_ne_zero
  field_simp

theorem qneg_eq (a : ℚ) : qneg a = -a := by
  unfold qneg
  rw [Rat.mkRat_eq_divInt, Rat.divInt_eq_div]
  push_cast
  rw [neg_div, Rat.num_div_den]

theorem qsub_eq (a b : ℚ) : qsub a b = a - b := by
  rw [qsub, qadd_eq, qneg_eq, sub_eq_add_neg]

theorem qmul_eq (a b : ℚ) : qmul a b = a * b := by
  unfold qmul
  rw [Rat.mkRat_eq_divInt, Rat.divInt_eq_div]
  push_cast
  conv_rhs => rw [← Rat.num_div_den a, ← Rat.num_div_den b]
  rw [div_mul_div_comm]

theorem qinv_eq (b : ℚ) : qinv b = b⁻¹ := by
  unfold qinv
  by_cases h : b.num < 0
  · rw [if_pos h, Rat.mkRat_eq_divInt, Rat.divInt_eq_div]
    have h2 : ((b.num.natAbs : ℤ)) = -b.num := by omega
    rw [h2]
    push_cast
    rw [div_neg, ← neg_div, neg_neg, Rat.inv_def', Rat.divInt_eq_div]
    norm_cast
  · rw [if_neg h, Rat.mkRat_eq_divInt, Rat.divInt_eq_div]
    have h2 : ((b.num.natAbs : ℤ)) = b.num := by omega
    rw [h2]
    push_cast
    rw [Rat.inv_def', Rat.divInt_eq_div]
    norm_cast

theorem qdiv_eq (a b : ℚ) : qdiv a b = a / b := by
  rw [qdiv, qmul_eq, qinv_eq, div_eq_mul_inv]

theorem qsum_eq (l : List ℚ) : qsum l = l.sum := by
  unfold qsum
  induction l with
  | nil => rfl
  | cons x xs ih => simp [List.foldr_cons, ih, qadd_eq]

/-! ### String primitives

The parser in `load_smhi_csv` works line-by-line on `;`-separated fields.
We model Python's `str.split(';')`, `str.lower`, substring test (`in`),
`str.partition(' ')` and the builtin `float()` (on the plain decimal
literals that appear in the data files: optional sign, digits, optional
fraction part) as executable functions on `String`/`List Char`. -/

/-- Python `line.split(';')` on the underlying character list: splitting an
empty string yields `[""]`, a trailing separator yields a trailing `""`. -/
def splitSemis : List Char → List (List Char)
  | [] => [[]]
  | c :: cs =>
    let r := splitSemis cs
    if c = ';' then [] :: r else (c :: r.headD []) :: r.tail

/-- Python `line.split(';')`. -/
def splitCols (line : String) : List String := (splitSemis line.data).map String.mk

/-- Characters of `s.lower()`. -/
def lowerChars (s : String) : List Char := s.data.map Char.toLower

/-- Does `pat` occur at the head of `text`? -/
def startsWithL : List Char → List Char → Bool
  | [], _ => true
  | _ :: _, [] => false
  | p :: ps, t :: ts => p == t && startsWithL ps ts

/-- Python `pat in text` on character lists. -/
def containsSub (pat : List Char) : List Char → Bool
  | [] => startsWithL pat []
  | t :: ts => startsWithL pat (t :: ts) || containsSub pat ts

/-- the test `'longitud' in prevline.lower()` from `load_smhi_csv`. -/
def mentionsLongitud (line : String) : Bool := containsSub "longitud".data (lowerChars line)

/-- Numeric value of a digit string (most significant first). -/
def digitsVal (ds : List Char) : ℕ := ds.foldl (fun n c => 10 * n + (c.toNat - 48)) 0

/-- Python `float(s)` on an unsigned decimal literal: digits with an
optional single decimal point, at least one digit overall.  `none` models
`ValueError`. -/
def parseUnsigned (s : List Char) : Option ℚ :=
  let ip := s.takeWhile (fun c => c ≠ '.')
  let fr := s.dropWhile (fun c => c ≠ '.')
  if ip.all Char.isDigit then
    match fr with
    | [] => if ip.isEmpty then none else some ((digitsVal ip : ℚ))
    | _ :: fp =>
      if fp.all Char.isDigit && (!ip.isEmpty || !fp.isEmpty) then
        some (qadd (digitsVal ip : ℚ) (qdiv (digitsVal fp : ℚ) ((10 ^ fp.length : ℕ) : ℚ)))
      else none
  else none

/-- Python `float(s)` on the decimal literals occurring in the data files
(optional sign, digits, optional fraction).  `none` models `ValueError`. -/
def parseFloat (s : String) : Option ℚ :=
  match s.data with
  | [] => none
  | '-' :: rest => (parseUnsigned rest).map (fun q => -q)
  | '+' :: rest => parseUnsigned rest
  | l => parseUnsigned l

/-- Python `time.partition(' ')[0]`: the date part of a timestamp field. -/
def dateOf (time : String) : String := String.mk (time.data.takeWhile (fun c => c ≠ ' '))

/-! ### The per-station parser `load_smhi_csv`

The Python loop keeps, per line, the metadata triple
`altitude, latitude, longitude` (initially `None`), the accumulators
`times`/`temps`, and `prevline`.  Crucially the accumulators are **not**
initialised before the loop: they are local names first assigned inside
the `except` handler, so using them before any exception occurred raises
`NameError` (itself caught by the same handler).  We model the pair of
accumulators as `Option (List String × List ℚ)` where `none` means
"names not yet bound" (appending then is the `NameError`). -/

/-- Loop state of `load_smhi_csv` (lines 70–87 of the source). -/
structure ParseState where
  altitude : Option ℚ
  latitude : Option ℚ
  longitude : Option ℚ
  /-- The pair `times`, `temps`; `none` while the names are still unbound. -/
  acc : Option (List String × List ℚ)
  prev : String
deriving DecidableEq

/-- `[float(c) for c in cols[-3:]]` unpacked into three names: `none` models
the `ValueError` raised when a field does not parse or when there are not
exactly three values to unpack; on `none` the metadata keeps its old value
(Python assigns only after the whole right-hand side evaluated). -/
def last3Floats (cols : List String) : Option (ℚ × ℚ × ℚ) :=
  match (cols.drop (cols.length - 3)).map parseFloat with
  | [some a, some b, some c] => some (a, b, c)
  | _ => none

/-- Effect of one line on the accumulator pair, lines 77–86 of the source:
`time,temp = cols[0], cols[3]` (`IndexError` when the row is short), the
both-empty `continue`, `float(temp)` (`ValueError`), and the appends
(`NameError` when the accumulators are unbound).  Every exception lands in
the handler, which rebinds the accumulators to two empty lists. -/
def dataAcc (acc : Option (List String × List ℚ)) (cols : List String) :
    Option (List String × List ℚ) :=
  match cols.get? 3 with
  | none => some ([], [])
  | some temp =>
    if cols.headD "" = "" ∧ temp = "" then acc
    else
      match parseFloat temp with
      | none => some ([], [])
      | some t =>
        match acc with
        | none => some ([], [])
        | some (ts, vs) => some (ts ++ [dateOf (cols.headD "")], vs ++ [t])

/-- Data-row part of the loop body: only the accumulators and `prevline`
change; the metadata triple is untouched. -/
def parseStepData (s : ParseState) (line : String) (cols : List String) : ParseState :=
  { s with acc := dataAcc s.acc cols, prev := line }

/-- One iteration of the `for line in lines[3:]` loop.  If the previous
line mentions `longitud`, the current line's last three fields are parsed
as the metadata triple first; a failure there is an exception (the
metadata keeps its old value, the accumulators are reset to empty); on
success the triple is assigned and the data-row handling follows. -/
def parseStep (s : ParseState) (line : String) : ParseState :=
  let cols := splitCols line
  if mentionsLongitud s.prev then
    match last3Floats cols with
    | none => { s with acc := some ([], []), prev := line }
    | some (a, b, c) =>
      parseStepData { s with altitude := some a, latitude := some b, longitude := some c } line cols
  else
    parseStepData s line cols

/-- Result of `load_smhi_csv`: the station name, the per-date temperature
series (paired lists, dates as strings) and the metadata triple. -/
structure ParsedStation where
  station : String
  times : List String
  temps : List ℚ
  altitude : Option ℚ
  latitude : Option ℚ
  longitude : Option ℚ
deriving DecidableEq

/-- Loop state before the first line: metadata `None`, accumulators unbound,
`prevline = ''`. -/
def initParseState : ParseState := ⟨none, none, none, none, ""⟩

/-- `load_smhi_csv` over the list of lines of the file.  `none` models the
uncaught exceptions: `IndexError` when the station-name row (line 2) is
missing, and `NameError` at `pd.DatetimeIndex(times)` when no line ever
bound the accumulators. -/
def load_smhi_csv (lines : List String) : Option ParsedStation :=
  match lines.get? 1 with
  | none => none
  | some row1 =>
    let location := (splitCols row1).headD ""
    let s := (lines.drop 3).foldl parseStep initParseState
    match s.acc with
    | none => none
    | some (ts, vs) => some ⟨location, ts, vs, s.altitude, s.latitude, s.longitude⟩

/-! ### The aggregation engine: the per-station fold of `load_data`

`load_data` builds a month-indexed table `total` (columns `temp`,
`tempnum`, `altitude`, `latitude`, `longitude`, `diff`, `diffnum`, all
initially zero) and folds every station into it.  A `Station` here is the
station's data as seen by one loop iteration: `temps` is the scratch
column `total['raw'] = df['temp']`, i.e. the parsed series aligned onto
the month index (`none` where the station has no entry for that month;
a present entry may still be the no-data sentinel, a value `≤ -1000`),
plus the metadata triple returned by the parser. -/

/-- A station as consumed by one iteration of the fold in `load_data`. -/
structure Station where
  /-- The station series aligned on the month index (`total['raw']`). -/
  temps : List (Option ℚ)
  altitude : Option ℚ
  latitude : Option ℚ
  longitude : Option ℚ
deriving DecidableEq

/-- the mask `total['raw'] > -1e3` at one month: a present reading strictly
above the no-data sentinel threshold (`NaN > -1e3` is false in pandas). -/
def hasData : Option ℚ → Bool
  | some t => decide ((-1000 : ℚ) < t)
  | none => false

/-- Helper for `diffSeries`: `prev` is the value of the latest earlier
present entry, if any. -/
def diffAux (prev : Option ℚ) : List (Option ℚ) → List (Option ℚ)
  | [] => []
  | none :: rest => none :: diffAux prev rest
  | some t :: rest =>
    (match prev with
     | none => none
     | some p => some (qsub t p)) :: diffAux (some t) rest

/-- `df['temp'].diff()` aligned onto the month index.  `df` holds only the
station's present readings, so pandas differences **consecutive rows of
`df`**: a present month's difference is taken against the station's latest
earlier present reading (whatever month that was), and is `NaN` for the
first present reading. -/
def diffSeries (l : List (Option ℚ)) : List (Option ℚ) := diffAux none l

/-- One month's row of the `total` table of `load_data`. -/
structure Row where
  temp : ℚ
  tempnum : ℕ
  altitude : ℚ
  latitude : ℚ
  longitude : ℚ
  diff : ℚ
  diffnum : ℕ
deriving DecidableEq

/-- `total`'s columns all start at zero. -/
def initRow : Row := ⟨0, 0, 0, 0, 0, 0, 0⟩

/-- Absolute-temperature pass at one month (lines 151–157): where the mask
holds, add the reading to `temp`, bump `tempnum`, and add the station's
metadata to the positional sums.  (The caller guarantees the metadata is
present whenever the mask can hold; see `stationCrashes`.) -/
def updRowAbs (a b c : ℚ) (r : Row) (x : Option ℚ) : Row :=
  if hasData x then
    { r with temp := qadd r.temp (x.getD 0), tempnum := r.tempnum + 1,
             altitude := qadd r.altitude a, latitude := qadd r.latitude b,
             longitude := qadd r.longitude c }
  else r

/-- Difference pass at one month (lines 166–170): where the masked
difference holds, add it to `diff` and bump `diffnum`. -/
def updRowDiff (r : Row) (d : Option ℚ) : Row :=
  if hasData d then { r with diff := qadd r.diff (d.getD 0), diffnum := r.diffnum + 1 } else r

/-- Total effect of one station on one month's row, given the station's
aligned reading `x` and aligned difference `d` for that month. -/
def updRow (a b c : ℚ) (r : Row) (x d : Option ℚ) : Row :=
  updRowDiff (updRowAbs a b c r x) d

/-- Apply `updRow` positionwise: months beyond the station's series keep
their row, station entries beyond the table are dropped (index alignment). -/
def zipUpd (a b c : ℚ) : List Row → List (Option ℚ × Option ℚ) → List Row
  | [], _ => []
  | r :: rs, [] => r :: rs
  | r :: rs, p :: ps => updRow a b c r p.1 p.2 :: zipUpd a b c rs ps

/-- A station's aligned reading and aligned difference, per month. -/
def stationPairs (st : Station) : List (Option ℚ × Option ℚ) :=
  st.temps.zip (diffSeries st.temps)

/-- Effect of one station on the whole `total` table. -/
def stepT (t : List Row) (st : Station) : List Row :=
  zipUpd (st.altitude.getD 0) (st.latitude.getD 0) (st.longitude.getD 0) t (stationPairs st)

/-! ### `largest_consecutive_block` and the position-sample rows -/

/-- Maximal runs of present (non-`NaN`) entries, in order; `cur` is the
reversed run being collected.  This is the block decomposition that
`pd.arrays.SparseArray(ser).sp_index.to_block_index()` yields (the fill
value for a float series with `NaN`s is `NaN`, so blocks are the runs of
present entries — sentinel readings included). -/
def runsAux : List ℚ → List (Option ℚ) → List (List ℚ)
  | cur, [] => if cur.isEmpty then [] else [cur.reverse]
  | cur, some t :: rest => runsAux (t :: cur) rest
  | cur, none :: rest =>
    if cur.isEmpty then runsAux [] rest else cur.reverse :: runsAux [] rest

/-- `max(block_locs, key=lambda e:e[1])`: the first run of maximal length
(Python's `max` keeps the first of equals); `[]` when there are no runs. -/
def pickLargest : List (List ℚ) → List ℚ
  | [] => []
  | r :: rs =>
    let best := pickLargest rs
    if r.length < best.length then best else r

/-- `largest_consecutive_block(ser)` (lines 97–105).  Note the source
returns `ser.iloc[i:(i+l-1)]` for the winning block `(i, l)` — the slice
end is exclusive, so the block's **last element is dropped** and the
result has length `l - 1`. -/
def largest_consecutive_block (l : List (Option ℚ)) : List ℚ :=
  let b := pickLargest (runsAux [] l)
  b.take (b.length - 1)

/-- One row of the regression training set `pos_corr`; the metadata can be
`None` (it is stored as-is, becoming `NaN` in the frame). -/
structure PosSample where
  avg_temp : ℚ
  altitude : Option ℚ
  latitude : Option ℚ
deriving DecidableEq

/-- `longtemp.mean()`: the arithmetic mean of a list of rationals. -/
def listMean (l : List ℚ) : ℚ := qdiv (qsum l) (l.length : ℚ)

/-- The 0 or 1 `pos_corr` rows contributed by one station (lines 159–164):
take `largest_consecutive_block` of the aligned series; if it has at least
12 entries, truncate it at the tail to a multiple of 12 and record its
mean with the station's altitude and latitude. -/
def posSamples (st : Station) : List PosSample :=
  let longtemp := largest_consecutive_block st.temps
  if 12 ≤ longtemp.length then
    [⟨listMean (longtemp.take (longtemp.length - longtemp.length % 12)),
      st.altitude, st.latitude⟩]
  else []

/-! ### The whole fold, crashes included -/

/-- Does folding this station crash?  Lines 155–157 evaluate
`total.loc[has_data, 'altitude'] += res['altitude']` (and likewise for
latitude/longitude): when the metadata is `None` and the mask selects at
least one month, adding `None` to a float column raises `TypeError`
(pandas re-raises the `numpy` error for non-object dtypes); with an empty
mask the elementwise addition never runs and nothing is raised. -/
def stationCrashes (st : Station) : Bool :=
  (st.altitude.isNone || st.latitude.isNone || st.longitude.isNone)
    && st.temps.any hasData

/-- Mutable state of the fold: the month table and the `pos_corr` rows. -/
structure AggState where
  table : List Row
  pos_corr : List PosSample
deriving DecidableEq

/-- Non-crashing effect of one loop iteration of `load_data`. -/
def applyStation (s : AggState) (st : Station) : AggState :=
  ⟨stepT s.table st, s.pos_corr ++ posSamples st⟩

/-- One loop iteration of `load_data`; `none` is the `TypeError` crash. -/
def foldStation (s : AggState) (st : Station) : Option AggState :=
  if stationCrashes st then none else some (applyStation s st)

/-- Initial aggregation state for a month index of length `M`: all sums
and counts zero, no `pos_corr` rows (lines 130–139). -/
def initState (M : ℕ) : AggState := ⟨List.replicate M initRow, []⟩

/-- The station loop of `load_data` (lines 141–170) over a month index of
length `M`: fold every station, propagating a crash. -/
def load_data_fold (M : ℕ) (stations : List Station) : Option AggState :=
  stations.foldl (fun a st => a.bind (fun s => foldStation s st)) (some (initState M))

/-! ### Finalization (lines 171–175) -/

/-- One month's finalized row: each sum divided by its own count. -/
structure FinalRow where
  temp : Option ℚ
  altitude : Option ℚ
  latitude : Option ℚ
  longitude : Option ℚ
  diff : Option ℚ
deriving DecidableEq

/-- Float division of a sum by its count.  With a zero count the code
computes `0.0/0 = NaN` (a zero count forces a zero sum, proved below as
part of the C6 theorem), modelled as `none`. -/
def divCount (s : ℚ) (n : ℕ) : Option ℚ := if n = 0 then none else some (qdiv s (n : ℚ))

/-- Lines 171–175: `diff /= diffnum`, `temp /= tempnum`, and the three
positional columns each `/= tempnum`. -/
def finalizeRow (r : Row) : FinalRow :=
  ⟨divCount r.temp r.tempnum, divCount r.altitude r.tempnum,
   divCount r.latitude r.tempnum, divCount r.longitude r.tempnum,
   divCount r.diff r.diffnum⟩

/-! ### The position-bias corrector `pos_adjust_temp` -/

/-- Python `min(a, b)` (keeps the first argument on equality). -/
def pymin (a b : ℚ) : ℚ := if b < a then b else a

/-- pandas `Series.mean()`: mean over the present entries, `NaN` when
every entry is missing. -/
def omean (l : List (Option ℚ)) : Option ℚ :=
  let vs := l.filterMap id
  if vs.isEmpty then none else some (qdiv (qsum vs) (vs.length : ℚ))

/-- `NaN`-propagating subtraction. -/
def osub : Option ℚ → Option ℚ → Option ℚ
  | some x, some y => some (qsub x y)
  | _, _ => none

/-- `NaN`-propagating multiplication. -/
def omul : Option ℚ → Option ℚ → Option ℚ
  | some x, some y => some (qmul x y)
  | _, _ => none

/-- Modelled from the spec: `sklearn.linear_model.LinearRegression` is a
library external to the repository.  Its `fit` raises on an empty sample
set (`ValueError: Found array with 0 sample(s)`) — the failure the spec
names `InsufficientDataError` — and on `NaN` input; otherwise it fits by
least squares with an intercept.  The nonsingular case is the exact
normal-equation solution on centred data; for a singular design we return
zero coefficients (a stand-in for `lstsq`'s minimum-norm solution — no
claim depends on the coefficients' values, only on the clamping applied
afterwards).  Clamping is from lines 113–114: `min(0.0, c)` on each
coefficient. -/
def fitClamped (samples : List PosSample) : Except String (ℚ × ℚ) :=
  if samples.isEmpty then Except.error "InsufficientDataError"
  else if samples.any (fun p => p.altitude.isNone || p.latitude.isNone) then
    Except.error "Input contains NaN"
  else
    let n : ℚ := samples.length
    let xs := samples.map (fun p => p.altitude.getD 0)
    let ys := samples.map (fun p => p.latitude.getD 0)
    let zs := samples.map PosSample.avg_temp
    let mx := qdiv (qsum xs) n
    let my := qdiv (qsum ys) n
    let mz := qdiv (qsum zs) n
    let sxx := qsum (xs.map (fun x => qmul (qsub x mx) (qsub x mx)))
    let syy := qsum (ys.map (fun y => qmul (qsub y my) (qsub y my)))
    let sxy := qsum (List.zipWith (fun x y => qmul (qsub x mx) (qsub y my)) xs ys)
    let sxz := qsum (List.zipWith (fun x z => qmul (qsub x mx) (qsub z mz)) xs zs)
    let syz := qsum (List.zipWith (fun y z => qmul (qsub y my) (qsub z mz)) ys zs)
    let det := qsub (qmul sxx syy) (qmul sxy sxy)
    let ca := if det = 0 then 0 else qdiv (qsub (qmul sxz syy) (qmul syz sxy)) det
    let cl := if det = 0 then 0 else qdiv (qsub (qmul syz sxx) (qmul sxz sxy)) det
    Except.ok (pymin 0 ca, pymin 0 cl)

/-- Correction part of `pos_adjust_temp` (lines 115–122), given the fitted
clamped coefficients: `adj = temp - (altitude - avg_alt)*c_altitude -
(latitude - avg_lat)*c_latitude` per month, with `NaN` propagation. -/
def adjustTemp (tbl : List FinalRow) (ca cl : ℚ) : List (Option ℚ) :=
  let avgAlt := omean (tbl.map FinalRow.altitude)
  let avgLat := omean (tbl.map FinalRow.latitude)
  tbl.map (fun r =>
    osub (osub r.temp (omul (osub r.altitude avgAlt) (some ca)))
         (omul (osub r.latitude avgLat) (some cl)))

/-- `pos_adjust_temp(df, pos_corr)` (lines 108–122): fit-and-clamp, then
apply the correction; a fit failure propagates to the caller. -/
def pos_adjust_temp (tbl : List FinalRow) (pos_corr : List PosSample) :
    Except String (List (Option ℚ)) :=
  match fitClamped pos_corr with
  | Except.error e => Except.error e
  | Except.ok (ca, cl) => Except.ok (adjustTemp tbl ca cl)

/-! ### Derived notions used to state the claims -/

/-- The value of the latest present entry of `l`, with fallback `prev`. -/
def lastPresent (prev : Option ℚ) (l : List (Option ℚ)) : Option ℚ :=
  l.foldl (fun acc x => match x with | some t => some t | none => acc) prev

/-- What one station actually contributes to month `m`'s difference sum:
`reading(m) - p` where `p` is the station's latest earlier present
reading, provided month `m` has a reading and the difference passes the
`> -1e3` mask; nothing otherwise. -/
def diffContrib (st : Station) (m : ℕ) : Option ℚ :=
  match st.temps[m]?, lastPresent none (st.temps.take m) with
  | some (some t), some p => if (-1000 : ℚ) < t - p then some (t - p) else none
  | _, _ => none

/-! ### Positionwise lemmas about the fold -/

/-- Entry `k` of the aligned difference series: the reading at `k` minus
the latest earlier present reading (tracked through the accumulator
`prev`). -/
theorem diffAux_getElem (l : List (Option ℚ)) : ∀ (prev : Option ℚ) (k : ℕ),
    (diffAux prev l)[k]? =
      (l[k]?).map (fun x => x.bind (fun t =>
        (lastPresent prev (l.take k)).map (fun p => qsub t p))) := by
  induction l with
  | nil => intro prev k; rfl
  | cons x xs ih =>
    intro prev k
    cases k with
    | zero => cases x <;> cases prev <;> simp [diffAux, lastPresent]
    | succ k2 => cases x <;> simp [diffAux, lastPresent, ih]

/-- Entry `m` of a zip of two lists. -/
theorem zip_getElem {α β : Type} (l : List α) : ∀ (l2 : List β) (m : ℕ),
    (l.zip l2)[m]? = (l[m]?).bind (fun x => (l2[m]?).map (fun y => (x, y))) := by
  induction l with
  | nil => intro l2 m; simp
  | cons x xs ih =>
    intro l2 m
    cases l2 with
    | nil => simp
    | cons y ys =>
      cases m with
      | zero => simp
      | succ m2 => simp [ih]

/-- Entry `m` of the table after one station's positionwise update. -/
theorem zipUpd_getElem (a b c : ℚ) : ∀ (t : List Row) (ps : List (Option ℚ × Option ℚ)) (m : ℕ),
    (zipUpd a b c t ps)[m]? =
      (t[m]?).map (fun r => match ps[m]? with
        | some p => updRow a b c r p.1 p.2
        | none => r) := by
  intro t
  induction t with
  | nil => intro ps m; cases ps <;> simp [zipUpd]
  | cons r rs ih =>
    intro ps m
    cases ps with
    | nil =>
      cases h : (r :: rs)[m]? <;> simp [zipUpd, h]
    | cons p ps2 =>
      cases m with
      | zero => simp [zipUpd]
      | succ m2 => simp [zipUpd, ih]

/-- The difference columns of an updated row. -/
theorem updRow_diff_proj (a b c : ℚ) (r : Row) (x d : Option ℚ) :
    (updRow a b c r x d).diff = (if hasData d then qadd r.diff (d.getD 0) else r.diff) ∧
      (updRow a b c r x d).diffnum = (if hasData d then r.diffnum + 1 else r.diffnum) := by
  unfold updRow updRowDiff updRowAbs
  by_cases hx : hasData x <;> by_cases hd : hasData d <;> simp [hx, hd]

/-- The absolute-pass columns of an updated row. -/
theorem updRow_abs_proj (a b c : ℚ) (r : Row) (x d : Option ℚ) :
    (updRow a b c r x d).temp = (if hasData x then qadd r.temp (x.getD 0) else r.temp) ∧
      (updRow a b c r x d).tempnum = (if hasData x then r.tempnum + 1 else r.tempnum) ∧
      (updRow a b c r x d).altitude = (if hasData x then qadd r.altitude a else r.altitude) ∧
      (updRow a b c r x d).latitude = (if hasData x then qadd r.latitude b else r.latitude) ∧
      (updRow a b c r x d).longitude = (if hasData x then qadd r.longitude c else r.longitude) := by
  unfold updRow updRowDiff updRowAbs
  by_cases hx : hasData x <;> by_cases hd : hasData d <;> simp [hx, hd]

/-! ## Claim C1 -/

/-- A station with a reading at months 0 and 2 but none at month 1. -/
def c1Station : Station := ⟨[some 0, none, some 5], some 10, some 20, some 30⟩

/-- C1, counterexample: the claim says nothing is added to a month's
difference sum when the previous month's reading is missing.  For
`c1Station` month 1 has no reading, so the claim predicts difference sums
`[0,0,0]` and counts `[0,0,0]`; but `df['temp'].diff()` differences
consecutive rows of the station's own frame, so month 2 receives
`5 - 0 = 5` (the gap is skipped) and its count becomes 1. -/
theorem diff_summed_across_missing_month :
    (load_data_fold 3 [c1Station]).map (fun s => (s.table.map Row.diff, s.table.map Row.diffnum)) =
        some ([0, 0, 5], [0, 0, 1]) ∧
      (load_data_fold 3 [c1Station]).map (fun s => (s.table.map Row.diff, s.table.map Row.diffnum)) ≠
        some ([0, 0, 0], [0, 0, 0]) := by
  decide

/-- C1, amended: the value added to month `m`'s difference sum is the
station's reading at `m` minus its latest **earlier present** reading
(whatever month that was, sentinel readings included), and it is added —
with the difference count incremented — exactly when that difference
passes the `> -1e3` mask; a month with no reading, or with no earlier
present reading, contributes nothing (`diffContrib` packages exactly
this). -/
theorem diff_uses_previous_present_reading (s : AggState) (st : Station) (m : ℕ) (r : Row)
    (hr : s.table[m]? = some r) (hm : m < st.temps.length) :
    ((applyStation s st).table[m]?).map Row.diff =
        some (r.diff + (diffContrib st m).getD 0) ∧
      ((applyStation s st).table[m]?).map Row.diffnum =
        some (r.diffnum + if (diffContrib st m).isSome then 1 else 0) := by
  obtain ⟨x, hx⟩ : ∃ x, st.temps[m]? = some x :=
    ⟨st.temps[m], List.getElem?_eq_getElem hm⟩
  have hd : (diffSeries st.temps)[m]? =
      some (x.bind (fun t => (lastPresent none (st.temps.take m)).map (fun p => qsub t p))) := by
    rw [diffSeries, diffAux_getElem, hx, Option.map_some']
  have hps : (stationPairs st)[m]? =
      some (x, x.bind (fun t => (lastPresent none (st.temps.take m)).map (fun p => qsub t p))) := by
    rw [stationPairs, zip_getElem, hx, hd]
    rfl
  have happ : (applyStation s st).table[m]? =
      some (updRow (st.altitude.getD 0) (st.latitude.getD 0) (st.longitude.getD 0) r x
        (x.bind (fun t => (lastPresent none (st.temps.take m)).map (fun p => qsub t p)))) := by
    show (stepT s.table st)[m]? = _
    rw [stepT, zipUpd_getElem, hr, Option.map_some', hps]
  rw [happ]
  obtain ⟨h1, h2⟩ := updRow_diff_proj (st.altitude.getD 0) (st.latitude.getD 0)
    (st.longitude.getD 0) r x
    (x.bind (fun t => (lastPresent none (st.temps.take m)).map (fun p => qsub t p)))
  rw [Option.map_some', Option.map_some', h1, h2]
  unfold diffContrib
  rw [hx]
  cases x with
  | none => simp [hasData]
  | some t =>
    cases hlp : lastPresent none (st.temps.take m) with
    | none => simp [hasData]
    | some p =>
      simp only [Option.some_bind, Option.map_some']
      rw [show qsub t p = t - p from qsub_eq t p]
      by_cases hcmp : (-1000 : ℚ) < t - p
      · have hhd : hasData (some (t - p)) = true := by
          simp [hasData, hcmp]
        simp [hhd, hcmp, qadd_eq]
      · have hhd : hasData (some (t - p)) = false := by
          simp [hasData, hcmp]
        simp [hhd, hcmp]

/-- Witness for `diff_uses_previous_present_reading` at the station with
a gap at month 1 and month index 2. -/
theorem diff_uses_previous_present_reading_witness :
    ((applyStation (initState 3) c1Station).table[2]?).map Row.diff =
        some (initRow.diff + (diffContrib c1Station 2).getD 0) ∧
      ((applyStation (initState 3) c1Station).table[2]?).map Row.diffnum =
        some (initRow.diffnum + if (diffContrib c1Station 2).isSome then 1 else 0) :=
  diff_uses_previous_present_reading (initState 3) c1Station 2 initRow (by decide) (by decide)

/-! ## Claim C2 -/

/-- A station file of the shape fixed by claim C2: three header-ish lines
(the second carrying the station name in its first field), then the
altitude/latitude/longitude marker row, then the single data row. -/
def c2File : List String :=
  ["SMHI;opendata", "Abisko;96190", "Datum;Tid;Kvalitet;Lufttemperatur",
   "Stationshojd (meter over havet);Latitud (decimalgrader);Longitud (decimalgrader)",
   "2001-01-01;;;-3.2;;100.0;59.5;18.0"]

/-- C2: parsing a station file of 3 header lines, an
altitude/latitude/longitude marker row, and the single data row
`2001-01-01;;;-3.2;;100.0;59.5;18.0` yields a station series with exactly
one dated point, `2001-01-01` at temperature `-3.2`, and metadata
altitude `100.0`, latitude `59.5`, longitude `18.0`.  (The marker row
itself raises inside the loop — it has no fourth field — which is what
first binds the accumulators, so the following data row is kept.) -/
theorem parse_roundtrip_single_point :
    load_smhi_csv c2File =
      some ⟨"Abisko", ["2001-01-01"], [mkRat (-16) 5],
            some 100, some (mkRat 119 2), some 18⟩ := by
  decide

/-! ## Claim C3 -/

/-- A station file whose marker row is immediately preceded by the value
row `1.0;2.0;3.0` and immediately followed by the value row `4.0;5.0;6.0`,
separating the two readings the claim disagrees about. -/
def c3File : List String :=
  ["SMHI;opendata", "Station Alpha;12345", "Datum;Tid;Kvalitet;Lufttemperatur",
   "1.0;2.0;3.0",
   "Stationshojd;Latitud;Longitud",
   "4.0;5.0;6.0",
   "x",
   "2001-01-01 00:00;;;7.5"]

/-- C3, counterexample: the claim says the metadata triple is taken from
the last three fields of the row immediately **preceding** the row whose
label mentions "longitude", which for `c3File` would give
`(1.0, 2.0, 3.0)`; the code takes it from the row immediately
**following** the labeled row (lines 75–76 read the *current* line's
fields when `prevline` carries the label), giving `(4.0, 5.0, 6.0)`. -/
theorem metadata_read_from_following_row_not_preceding :
    (load_smhi_csv c3File).map (fun r => (r.altitude, r.latitude, r.longitude)) =
        some (some 4, some 5, some 6) ∧
      (load_smhi_csv c3File).map (fun r => (r.altitude, r.latitude, r.longitude)) ≠
        some (some 1, some 2, some 3) := by
  decide

/-- C3, amended: for every file, the parser takes altitude, latitude and
longitude as floats from the last three delimited fields of the row
immediately **following** the row whose label mentions "longitud"
(case-insensitively); stated on one loop step: when the previous line
carries the label and the current line's last three fields parse, the
state's metadata becomes exactly those three floats. -/
theorem metadata_from_row_after_marker (s : ParseState) (line : String) (a b c : ℚ)
    (hprev : mentionsLongitud s.prev = true)
    (hcols : last3Floats (splitCols line) = some (a, b, c)) :
    (parseStep s line).altitude = some a ∧ (parseStep s line).latitude = some b ∧
      (parseStep s line).longitude = some c := by
  unfold parseStep
  rw [hprev, if_pos rfl, hcols]
  unfold parseStepData
  exact ⟨rfl, rfl, rfl⟩

/-- Witness for `metadata_from_row_after_marker` at a concrete state and
line. -/
theorem metadata_from_row_after_marker_witness :
    (parseStep ⟨none, none, none, none, "Longitud (decimalgrader)"⟩ "4.0;5.0;6.0").altitude
        = some 4 ∧
      (parseStep ⟨none, none, none, none, "Longitud (decimalgrader)"⟩ "4.0;5.0;6.0").latitude
        = some 5 ∧
      (parseStep ⟨none, none, none, none, "Longitud (decimalgrader)"⟩ "4.0;5.0;6.0").longitude
        = some 6 :=
  metadata_from_row_after_marker ⟨none, none, none, none, "Longitud (decimalgrader)"⟩
    "4.0;5.0;6.0" 4 5 6 (by decide) (by decide)

/-! ## Claim C4 -/

/-- A station with exactly 12 consecutive months of valid readings (and
metadata present). -/
def c4Station : Station := ⟨List.replicate 12 (some 1), some 100, some 60, some 18⟩

/-- C4, failing input: this station's single longest unbroken run of valid
monthly readings spans exactly 12 months, so the claim (and the `# need at
least a year` intent of line 160) demands one PositionSample with the mean
over those 12 months.  Because `largest_consecutive_block` returns
`ser.iloc[i:(i+l-1)]` — dropping the block's last element — the code sees
a run of length 11 and records nothing. -/
theorem twelve_month_run_records_no_sample :
    (largest_consecutive_block c4Station.temps).length = 11 ∧
      posSamples c4Station = [] ∧
      (load_data_fold 12 [c4Station]).map AggState.pos_corr = some [] := by
  decide

/-! ## Claim C5 -/

/-- A station with one valid reading but absent altitude metadata. -/
def c5Station : Station := ⟨[some 5], none, some 60, some 18⟩

/-- C5, counterexample: the claim says folding a station with absent
metadata completes without crashing, merely excluding its positional
contribution.  For this station (one valid reading, `altitude = None`)
line 155 adds `None` to a float column over a non-empty mask, which
raises `TypeError`: the fold crashes instead of completing. -/
theorem missing_metadata_crashes_fold :
    load_data_fold 1 [c5Station] = none ∧ c5Station.temps.any hasData = true := by
  decide

/-- C5, amended: folding a station whose altitude, latitude or longitude
is absent **crashes** (`TypeError` from `+= None`) whenever the station
has at least one valid monthly reading; when it has no valid reading the
fold completes, and at every month the absolute-temperature and
positional columns (`temp`, `tempnum`, `altitude`, `latitude`,
`longitude`) are left exactly as they were — only the difference columns
can still change, since a difference of two sentinel readings can pass
the `> -1e3` mask. -/
theorem missing_metadata_fold_dichotomy (s : AggState) (st : Station)
    (hmeta : st.altitude = none ∨ st.latitude = none ∨ st.longitude = none) :
    (st.temps.any hasData = true → foldStation s st = none) ∧
      (st.temps.any hasData = false →
        foldStation s st = some (applyStation s st) ∧
        ∀ m : ℕ,
          ((applyStation s st).table[m]?).map Row.temp = (s.table[m]?).map Row.temp ∧
          ((applyStation s st).table[m]?).map Row.tempnum = (s.table[m]?).map Row.tempnum ∧
          ((applyStation s st).table[m]?).map Row.altitude = (s.table[m]?).map Row.altitude ∧
          ((applyStation s st).table[m]?).map Row.latitude = (s.table[m]?).map Row.latitude ∧
          ((applyStation s st).table[m]?).map Row.longitude =
            (s.table[m]?).map Row.longitude) := by
  constructor
  · intro hd
    unfold foldStation stationCrashes
    rcases hmeta with h | h | h <;> rw [h] <;> simp [hd]
  · intro hd
    constructor
    · unfold foldStation stationCrashes
      rw [hd]
      simp
    · intro m
      have happ : (applyStation s st).table[m]? =
          (s.table[m]?).map (fun r => match (stationPairs st)[m]? with
            | some p =>
              updRow (st.altitude.getD 0) (st.latitude.getD 0) (st.longitude.getD 0) r p.1 p.2
            | none => r) := by
        show (stepT s.table st)[m]? = _
        rw [stepT, zipUpd_getElem]
      rw [happ]
      cases hsr : s.table[m]? with
      | none => simp
      | some r =>
        simp only [Option.map_some']
        cases hp : (stationPairs st)[m]? with
        | none => simp
        | some p =>
          have hx : st.temps[m]? = some p.1 := by
            rw [stationPairs, zip_getElem] at hp
            cases hxx : st.temps[m]? with
            | none =>
              rw [hxx] at hp
              cases hp
            | some x =>
              rw [hxx] at hp
              simp only [Option.some_bind] at hp
              cases hdd : (diffSeries st.temps)[m]? with
              | none =>
                rw [hdd] at hp
                cases hp
              | some d =>
                rw [hdd] at hp
                simp only [Option.map_some', Option.some.injEq] at hp
                rw [← hp]
          have hno : hasData p.1 = false := by
            cases hcc : hasData p.1
            · rfl
            · have hall : st.temps.any hasData = true :=
                List.any_eq_true.mpr ⟨p.1, List.getElem?_mem hx, hcc⟩
              rw [hall] at hd
              cases hd
          obtain ⟨p1, p2, p3, p4, p5⟩ := updRow_abs_proj (st.altitude.getD 0)
            (st.latitude.getD 0) (st.longitude.getD 0) r p.1 p.2
          simp [p1, p2, p3, p4, p5, hno]

/-- A station with one valid reading but absent altitude metadata, for
the crash branch of the C5 witness. -/
def c5Crash : Station := ⟨[some 5], none, some 60, some 18⟩

/-- A station with only sentinel readings and absent altitude metadata,
for the completion branch of the C5 witness: its fold completes and
leaves month 0's absolute and positional columns untouched (its
sentinel-to-sentinel difference still enters the difference column). -/
def c5Sentinel : Station := ⟨[some (-1500), some (-1001)], none, some 60, some 18⟩

/-- Witness for `missing_metadata_fold_dichotomy`: the crash branch at a
station with a valid reading, and the completion branch — absolute and
positional columns of month 0 unchanged — at a sentinel-only station. -/
theorem missing_metadata_fold_dichotomy_witness :
    foldStation (initState 2) c5Crash = none ∧
      foldStation (initState 2) c5Sentinel = some (applyStation (initState 2) c5Sentinel) ∧
      ((applyStation (initState 2) c5Sentinel).table[0]?).map Row.tempnum =
        (((initState 2).table)[0]?).map Row.tempnum ∧
      ((applyStation (initState 2) c5Sentinel).table[0]?).map Row.altitude =
        (((initState 2).table)[0]?).map Row.altitude := by
  have h1 := (missing_metadata_fold_dichotomy (initState 2) c5Crash (Or.inl rfl)).1
    (by decide)
  have h2 := (missing_metadata_fold_dichotomy (initState 2) c5Sentinel (Or.inl rfl)).2
    (by decide)
  exact ⟨h1, h2.1, (h2.2 0).2.1, (h2.2 0).2.2.1⟩

/-! ## Claim C10 -/

/-- C10: in a file where every line from the fourth onward up to and
including the first well-formed data row parses without error, that first
data row is lost.  Stated on the loop step: if no exception has occurred
yet (the accumulators are still unbound, `s.acc = none`), and the current
line is a well-formed data row — its metadata step (if triggered) parses,
it has a fourth field, it is not skipped as doubly-empty, and its
temperature parses — then after the step the accumulators are **empty**:
the appends raised `NameError` and the handler created fresh empty lists,
so the row's date and temperature are discarded. -/
theorem first_wellformed_data_row_discarded (s : ParseState) (line : String)
    (temp : String) (t : ℚ)
    (hacc : s.acc = none)
    (hmeta : mentionsLongitud s.prev = true → (last3Floats (splitCols line)).isSome = true)
    (h4 : (splitCols line).get? 3 = some temp)
    (hne : ¬((splitCols line).headD "" = "" ∧ temp = ""))
    (hpf : parseFloat temp = some t) :
    (parseStep s line).acc = some ([], []) := by
  have hdata : dataAcc none (splitCols line) = some ([], []) := by
    simp only [dataAcc, h4, hpf]
    rw [if_neg hne]
  unfold parseStep
  by_cases hl : mentionsLongitud s.prev
  · rw [if_pos hl]
    obtain ⟨trip, htrip⟩ := Option.isSome_iff_exists.mp (hmeta hl)
    obtain ⟨a, b, c⟩ := trip
    rw [htrip]
    unfold parseStepData
    show dataAcc s.acc (splitCols line) = some ([], [])
    rw [hacc]
    exact hdata
  · rw [if_neg hl]
    unfold parseStepData
    show dataAcc s.acc (splitCols line) = some ([], [])
    rw [hacc]
    exact hdata

/-- Witness for `first_wellformed_data_row_discarded`: the initial parse
state and the data row `2001-02-01;;;4.5`. -/
theorem first_wellformed_data_row_discarded_witness :
    (parseStep ⟨none, none, none, none, ""⟩ "2001-02-01;;;4.5").acc = some ([], []) :=
  first_wellformed_data_row_discarded ⟨none, none, none, none, ""⟩ "2001-02-01;;;4.5"
    "4.5" (mkRat 9 2) rfl (by decide) (by decide) (by decide) (by decide)

/-! ## Claim C8 -/

/-- Clamping with `min(0.0, c)` yields a nonpositive coefficient. -/
theorem pymin_zero_nonpos (x : ℚ) : pymin 0 x ≤ 0 := by
  unfold pymin
  by_cases h : x < 0
  · rw [if_pos h]; exact le_of_lt h
  · rw [if_neg h]

/-- A one-month finalized table for the C8 witness. -/
def c8Table : List FinalRow := [⟨some 1, some 2, some 3, some 4, some 5⟩]

/-- A singleton training set for the C8 witness (its fit is the
degenerate zero-coefficient solution, clamped to `(0, 0)`). -/
def c8Samples : List PosSample := [⟨5, some 100, some 60⟩]

/-- C8: for every finalized table and fitted coefficients, the clamped
coefficients are nonpositive, the corrector returns the month-indexed
series of the same length as the input, every month computes
`raw − (altitude − mean altitude)·c_altitude − (latitude − mean
latitude)·c_latitude` when the inputs are defined, and a month whose raw
temperature is undefined stays undefined. -/
theorem correction_formula (tbl : List FinalRow) (samples : List PosSample) (ca cl : ℚ)
    (hfit : fitClamped samples = Except.ok (ca, cl)) :
    ca ≤ 0 ∧ cl ≤ 0 ∧
      pos_adjust_temp tbl samples = Except.ok (adjustTemp tbl ca cl) ∧
      (adjustTemp tbl ca cl).length = tbl.length ∧
      (∀ (m : ℕ) (r : FinalRow), tbl[m]? = some r →
        (r.temp = none → (adjustTemp tbl ca cl)[m]? = some none) ∧
        (∀ t a la A La : ℚ, r.temp = some t → r.altitude = some a → r.latitude = some la →
          omean (tbl.map FinalRow.altitude) = some A →
          omean (tbl.map FinalRow.latitude) = some La →
          (adjustTemp tbl ca cl)[m]? =
            some (some (t - (a - A) * ca - (la - La) * cl)))) := by
  have hclamp : ca ≤ 0 ∧ cl ≤ 0 := by
    simp only [fitClamped] at hfit
    split at hfit
    · simp at hfit
    · split at hfit
      · simp at hfit
      · rw [Except.ok.injEq, Prod.mk.injEq] at hfit
        obtain ⟨hca, hcl⟩ := hfit
        rw [← hca, ← hcl]
        exact ⟨pymin_zero_nonpos _, pymin_zero_nonpos _⟩
  refine ⟨hclamp.1, hclamp.2, ?_, ?_, ?_⟩
  · unfold pos_adjust_temp
    rw [hfit]
  · unfold adjustTemp
    simp
  · intro m r hmr
    constructor
    · intro ht
      simp only [adjustTemp, List.getElem?_map, hmr, Option.map_some', ht]
      rfl
    · intro t a la A La ht ha hla hA hLa
      simp only [adjustTemp, List.getElem?_map, hmr, Option.map_some', ht, ha, hla, hA, hLa]
      simp [osub, omul, qsub_eq, qmul_eq]

/-- Witness for `correction_formula` at the singleton table and training
set. -/
theorem correction_formula_witness :
    (0 : ℚ) ≤ 0 ∧
      pos_adjust_temp c8Table c8Samples = Except.ok (adjustTemp c8Table 0 0) ∧
      (adjustTemp c8Table 0 0)[0]? = some (some ((1 : ℚ) - (2 - 2) * 0 - (3 - 3) * 0)) := by
  obtain ⟨h1, h2, h3, h4, h5⟩ := correction_formula c8Table c8Samples 0 0 rfl
  refine ⟨h1, h3, ?_⟩
  exact (h5 0 ⟨some 1, some 2, some 3, some 4, some 5⟩ rfl).2 1 2 3 2 3 rfl rfl rfl
    (by decide) (by decide)

/-! ## Claim C7 -/

/-- C7: with an empty PositionSample set the corrector fails — the error
the spec names `InsufficientDataError` — for every input table; it does
not fit a model and does not return an unadjusted series. -/
theorem empty_pos_corr_errors (tbl : List FinalRow) :
    pos_adjust_temp tbl [] = Except.error "InsufficientDataError" := rfl

/-! ### Shared lemmas: row updates, the fold, and reachable tables -/

/-- Invariant of every reachable row: a sum is zero whenever its own count
is zero (each sum is only ever incremented together with its count). -/
def RowZero (r : Row) : Prop :=
  (r.tempnum = 0 → r.temp = 0 ∧ r.altitude = 0 ∧ r.latitude = 0 ∧ r.longitude = 0) ∧
    (r.diffnum = 0 → r.diff = 0)

/-- The all-zero initial row satisfies the invariant. -/
theorem initRow_zero : RowZero initRow := by
  constructor <;> intro <;> simp [initRow]

/-- One station's update preserves the zero-sum invariant. -/
theorem updRow_zero {r : Row} (h : RowZero r) (a b c : ℚ) (x d : Option ℚ) :
    RowZero (updRow a b c r x d) := by
  obtain ⟨h1, h2⟩ := h
  obtain ⟨p1, p2, p3, p4, p5⟩ := updRow_abs_proj a b c r x d
  obtain ⟨q1, q2⟩ := updRow_diff_proj a b c r x d
  constructor
  · intro h0
    rw [p2] at h0
    by_cases hx : hasData x
    · rw [if_pos hx] at h0
      exact absurd h0 (Nat.succ_ne_zero _)
    · rw [if_neg hx] at h0
      obtain ⟨e1, e2, e3, e4⟩ := h1 h0
      rw [p1, p3, p4, p5, if_neg hx, if_neg hx, if_neg hx, if_neg hx]
      exact ⟨e1, e2, e3, e4⟩
  · intro h0
    rw [q2] at h0
    by_cases hd : hasData d
    · rw [if_pos hd] at h0
      exact absurd h0 (Nat.succ_ne_zero _)
    · rw [if_neg hd] at h0
      rw [q1, if_neg hd]
      exact h2 h0

/-- The positionwise update preserves the invariant on every row. -/
theorem zipUpd_zero (a b c : ℚ) : ∀ (t : List Row) (ps : List (Option ℚ × Option ℚ)),
    (∀ r ∈ t, RowZero r) → ∀ r2 ∈ zipUpd a b c t ps, RowZero r2 := by
  intro t
  induction t with
  | nil => intro ps h r2 hr2; simp [zipUpd] at hr2
  | cons r rs ih =>
    intro ps h r2 hr2
    cases ps with
    | nil =>
      rw [zipUpd] at hr2
      exact h r2 hr2
    | cons p ps2 =>
      rw [zipUpd] at hr2
      rcases List.mem_cons.mp hr2 with h1 | h1
      · rw [h1]
        exact updRow_zero (h r (List.mem_cons_self r rs)) a b c p.1 p.2
      · exact ih ps2 (fun r3 hr3 => h r3 (List.mem_cons_of_mem r hr3)) r2 h1

/-- Folding any list of stations preserves the invariant on every row. -/
theorem foldT_zero (l : List Station) : ∀ (t : List Row),
    (∀ r ∈ t, RowZero r) → ∀ r2 ∈ l.foldl stepT t, RowZero r2 := by
  induction l with
  | nil => intro t h; simpa using h
  | cons st l ih =>
    intro t h
    rw [List.foldl_cons]
    exact ih _ (fun r hr => zipUpd_zero _ _ _ t _ h r hr)

/-- Once crashed, the fold stays crashed. -/
theorem foldOpt_none (l : List Station) :
    l.foldl (fun a st => a.bind (fun s2 => foldStation s2 st)) none = none := by
  induction l with
  | nil => rfl
  | cons st l ih => simpa using ih

/-- Characterization of the whole fold: it crashes exactly when some
station crashes, and otherwise the table is the pure fold of the
positionwise updates while `pos_corr` collects each station's samples in
order. -/
theorem load_fold_eq (l : List Station) : ∀ (s : AggState),
    l.foldl (fun a st => a.bind (fun s2 => foldStation s2 st)) (some s) =
      (if l.any stationCrashes then none
       else some ⟨l.foldl stepT s.table,
                  s.pos_corr ++ l.foldr (fun st acc => posSamples st ++ acc) []⟩) := by
  induction l with
  | nil => intro s; simp
  | cons st l ih =>
    intro s
    rw [List.foldl_cons, List.any_cons, List.foldr_cons]
    by_cases hc : stationCrashes st
    · have hstep : (some s).bind (fun s2 => foldStation s2 st) = none := by
        simp [foldStation, hc]
      rw [hstep, foldOpt_none, hc]
      simp
    · have hstep : (some s).bind (fun s2 => foldStation s2 st) = some (applyStation s st) := by
        simp [foldStation, hc]
      rw [hstep, ih]
      by_cases ha : l.any stationCrashes
      · simp [hc, ha]
      · simp [hc, ha, applyStation, List.append_assoc]

/-! ## Claim C6 -/

/-- C6: in every successfully finalized aggregate, a month whose
contributing count is zero in a given accumulator finalizes to an
explicit undefined value (`none`), never a silent zero — and its sum is
provably zero, so the float division the code performs is `0.0/0 = NaN`,
not an infinity and not a crash. -/
theorem zero_count_finalizes_undefined (M : ℕ) (stations : List Station) (s : AggState)
    (m : ℕ) (r : Row)
    (hs : load_data_fold M stations = some s) (hr : s.table[m]? = some r) :
    (r.tempnum = 0 → (finalizeRow r).temp = none ∧ (finalizeRow r).altitude = none ∧
      (finalizeRow r).latitude = none ∧ (finalizeRow r).longitude = none ∧
      r.temp = 0 ∧ r.altitude = 0 ∧ r.latitude = 0 ∧ r.longitude = 0) ∧
      (r.diffnum = 0 → (finalizeRow r).diff = none ∧ r.diff = 0) := by
  have hz : RowZero r := by
    unfold load_data_fold at hs
    rw [load_fold_eq] at hs
    by_cases hc : stations.any stationCrashes
    · rw [if_pos hc] at hs
      cases hs
    · rw [if_neg hc] at hs
      have htab : s.table = stations.foldl stepT (initState M).table := by
        rw [← Option.some_inj.mp hs]
      have hmem : r ∈ stations.foldl stepT (initState M).table := by
        rw [← htab]
        exact List.getElem?_mem hr
      refine foldT_zero stations _ (fun r0 hr0 => ?_) r hmem
      have hrepl : r0 = initRow := List.eq_of_mem_replicate hr0
      rw [hrepl]
      exact initRow_zero
  obtain ⟨hz1, hz2⟩ := hz
  constructor
  · intro h0
    obtain ⟨e1, e2, e3, e4⟩ := hz1 h0
    simp [finalizeRow, divCount, h0, e1, e2, e3, e4]
  · intro h0
    simp [finalizeRow, divCount, h0, hz2 h0]

/-- Witness for `zero_count_finalizes_undefined`: the empty station list
over a one-month index, whose single row has both counts zero. -/
theorem zero_count_finalizes_undefined_witness :
    ((initRow.tempnum = 0 → (finalizeRow initRow).temp = none ∧
        (finalizeRow initRow).altitude = none ∧
        (finalizeRow initRow).latitude = none ∧ (finalizeRow initRow).longitude = none ∧
        initRow.temp = 0 ∧ initRow.altitude = 0 ∧ initRow.latitude = 0 ∧
        initRow.longitude = 0) ∧
      (initRow.diffnum = 0 → (finalizeRow initRow).diff = none ∧ initRow.diff = 0)) :=
  zero_count_finalizes_undefined 1 [] (initState 1) 0 initRow rfl (by decide)

/-! ## Claim C9 -/

/-- One station's effect on a row written in additive normal form: every
sum gains a station-determined summand, every count a station-determined
increment. -/
theorem updRow_expand (a b c : ℚ) (r : Row) (x d : Option ℚ) :
    updRow a b c r x d =
      ⟨r.temp + (if hasData x then x.getD 0 else 0),
       r.tempnum + (if hasData x then 1 else 0),
       r.altitude + (if hasData x then a else 0),
       r.latitude + (if hasData x then b else 0),
       r.longitude + (if hasData x then c else 0),
       r.diff + (if hasData d then d.getD 0 else 0),
       r.diffnum + (if hasData d then 1 else 0)⟩ := by
  unfold updRow updRowDiff updRowAbs
  by_cases hx : hasData x <;> by_cases hd : hasData d <;> simp [hx, hd, qadd_eq]

/-- Two stations' updates of one row commute. -/
theorem updRow_comm (a1 b1 c1 a2 b2 c2 : ℚ) (r : Row) (x1 d1 x2 d2 : Option ℚ) :
    updRow a2 b2 c2 (updRow a1 b1 c1 r x1 d1) x2 d2 =
      updRow a1 b1 c1 (updRow a2 b2 c2 r x2 d2) x1 d1 := by
  simp only [updRow_expand]
  simp only [Row.mk.injEq]
  refine ⟨?_, ?_, ?_, ?_, ?_, ?_, ?_⟩ <;> ring

/-- Two stations' positionwise table updates commute. -/
theorem zipUpd_comm (a1 b1 c1 a2 b2 c2 : ℚ) : ∀ (t : List Row)
    (pa pb : List (Option ℚ × Option ℚ)),
    zipUpd a2 b2 c2 (zipUpd a1 b1 c1 t pa) pb =
      zipUpd a1 b1 c1 (zipUpd a2 b2 c2 t pb) pa := by
  intro t
  induction t with
  | nil => intro pa pb; cases pa <;> cases pb <;> simp [zipUpd]
  | cons r rs ih =>
    intro pa pb
    cases pa with
    | nil => cases pb <;> simp [zipUpd]
    | cons p pas =>
      cases pb with
      | nil => simp [zipUpd]
      | cons q pbs =>
        simp [zipUpd, ih, updRow_comm]

/-- Folding two stations into the table commutes. -/
theorem stepT_comm (t : List Row) (sa sb : Station) :
    stepT (stepT t sa) sb = stepT (stepT t sb) sa := by
  unfold stepT
  exact zipUpd_comm _ _ _ _ _ _ t (stationPairs sa) (stationPairs sb)

/-- The pure table fold is invariant under permutation of the stations. -/
theorem foldT_perm {l l2 : List Station} (hp : l.Perm l2) :
    ∀ t : List Row, l.foldl stepT t = l2.foldl stepT t := by
  induction hp with
  | nil => intro t; rfl
  | cons x hp2 ih =>
    intro t
    rw [List.foldl_cons, List.foldl_cons]
    exact ih _
  | swap x y l =>
    intro t
    rw [List.foldl_cons, List.foldl_cons, List.foldl_cons, List.foldl_cons, stepT_comm]
  | trans hp1 hp2 ih1 ih2 =>
    intro t
    rw [ih1, ih2]

/-- Whether some station crashes is invariant under permutation. -/
theorem any_perm {l l2 : List Station} (hp : l.Perm l2) :
    l.any stationCrashes = l2.any stationCrashes := by
  cases h2 : l2.any stationCrashes
  · cases h1 : l.any stationCrashes
    · rfl
    · obtain ⟨x, hx, hcx⟩ := List.any_eq_true.mp h1
      have hx2 : l2.any stationCrashes = true :=
        List.any_eq_true.mpr ⟨x, hp.mem_iff.mp hx, hcx⟩
      rw [hx2] at h2
      cases h2
  · obtain ⟨x, hx, hcx⟩ := List.any_eq_true.mp h2
    exact List.any_eq_true.mpr ⟨x, hp.mem_iff.mpr hx, hcx⟩

/-- C9: folding the stations in any permuted order yields the identical
month table — the same per-month sums and counts in the absolute
temperature, difference and positional accumulators — and hence the
identical finalized table.  (Only the table is order-independent; the
`pos_corr` rows are collected in fold order.) -/
theorem fold_order_invariant (M : ℕ) (l l2 : List Station) (hp : l.Perm l2) :
    (load_data_fold M l).map AggState.table = (load_data_fold M l2).map AggState.table ∧
      (load_data_fold M l).map (fun s => s.table.map finalizeRow) =
        (load_data_fold M l2).map (fun s => s.table.map finalizeRow) := by
  have htab : (load_data_fold M l).map AggState.table =
      (load_data_fold M l2).map AggState.table := by
    unfold load_data_fold
    rw [load_fold_eq, load_fold_eq, any_perm hp]
    by_cases hc : l2.any stationCrashes
    · rw [if_pos hc, if_pos hc]
    · rw [if_neg hc, if_neg hc]
      simp [foldT_perm hp]
  refine ⟨htab, ?_⟩
  cases h1 : load_data_fold M l <;> cases h2 : load_data_fold M l2 <;>
    rw [h1, h2] at htab <;> simp_all

/-- One of the two stations of the C9 witness. -/
def c9a : Station := ⟨[some 1], some 2, some 3, some 4⟩

/-- The other station of the C9 witness. -/
def c9b : Station := ⟨[some 2], some 5, some 6, some 7⟩

/-- Witness for `fold_order_invariant`: two concrete stations folded in
both orders. -/
theorem fold_order_invariant_witness :
    (load_data_fold 1 [c9a, c9b]).map AggState.table =
      (load_data_fold 1 [c9b, c9a]).map AggState.table ∧
    (load_data_fold 1 [c9a, c9b]).map (fun s => s.table.map finalizeRow) =
      (load_data_fold 1 [c9b, c9a]).map (fun s => s.table.map finalizeRow) :=
  fold_order_invariant 1 [c9a, c9b] [c9b, c9a] (List.Perm.swap c9b c9a [])

end ClimateCheck
